import Mathlib

/-!
Verification of the LuxuryChristmasTree repository's core logic.

This file gives a shallow embedding, over exact rational arithmetic, of:

  * the per-frame particle interpolation of `src/components/LuxuryTree.tsx`
    (the `useFrame` body: transition smoothing and the foliage / trunk /
    ribbon / snow-base position writes);
  * the gesture classifier `processGestures` of
    `src/components/HandController.tsx` (both variants present in the file);
  * the photo-focus logic of `src/App.tsx` (`handlePinchFocus`,
    `handleDoublePinch`, the `onDrag` / `onZoom` handlers, and the
    `targetScale` computation of `FocusedPhoto`).

JavaScript numbers are modelled as rationals (every JS float is a rational),
and the opaque `Math` library functions (`cos`, `sin`, `tan`, `pow`, `sqrt`,
`PI`) are modelled as fields of a `JSMath` parameter structure: the source
treats them as black-box numeric functions, and none of the verified
properties depend on their values beyond explicitly stated monotonicity
assumptions.  Distance threshold tests of the form `Math.sqrt d < r` with
`r > 0` are embedded as the equivalent `d < r^2`.
-/

/-- A bundle of the opaque `Math` primitives used by the source.  Each field
stands for the corresponding JavaScript `Math` member, as an arbitrary
function on rationals (JS floats are rationals; `Math.cos` etc. return
implementation-defined approximations). -/
structure JSMath where
  cos : ℚ → ℚ
  sin : ℚ → ℚ
  tan : ℚ → ℚ
  sqrt : ℚ → ℚ
  pow : ℚ → ℚ → ℚ
  pi : ℚ

/-- A 3-component vector with rational components, standing for a
`THREE.Vector3`. -/
@[ext]
structure Vec3 where
  x : ℚ
  y : ℚ
  z : ℚ
  deriving DecidableEq

/-- Embeds `THREE.MathUtils.lerp(x, y, t) = (1 - t) * x + t * y`
(three.js source of `MathUtils.lerp`). -/
def lerp (x y t : ℚ) : ℚ := (1 - t) * x + t * y

/-- Componentwise `lerp` of a chaos position toward a formed position, as in
each particle loop of the `useFrame` body of `LuxuryTree.tsx` (lines
286-311). -/
def lerpV (c p : Vec3) (t : ℚ) : Vec3 :=
  ⟨lerp c.x p.x t, lerp c.y p.y t, lerp c.z p.z t⟩

/-- One frame's live-position write for a foliage / trunk / ribbon particle
buffer: every particle's live position is `lerp(chaos, formed, transition)`
componentwise (`LuxuryTree.tsx` lines 286-311; the three loops are
identical in structure). -/
def groupLiveFrame (chaos formed : List Vec3) (t : ℚ) : List Vec3 :=
  List.zipWith (fun c p => lerpV c p t) chaos formed

/-- Static per-particle data of one snow-base particle: formed position,
chaos position, the terrain `variation` value, and the mutable `growth`
accumulator (`LuxuryTree.tsx` lines 212-232 and 313-329). -/
structure SnowParticle where
  pos : Vec3
  chaos : Vec3
  variation : ℚ
  growth : ℚ

/-- The proximity-weighted maximum drift height of a snow particle:
`(variation + 1.5) * max(0, 1 - r / 20) + 0.5` where `r` is the horizontal
distance from the trunk (`LuxuryTree.tsx` lines 319-321).  The source
computes `r` with `Math.sqrt`; the `m.sqrt` parameter stands for it. -/
def driftMaxHeight (m : JSMath) (p : SnowParticle) : ℚ :=
  (p.variation + 3/2) * max 0 (1 - m.sqrt (p.pos.x ^ 2 + p.pos.z ^ 2) / 20) + 1/2

/-- One frame's update of a single snow-base particle (`LuxuryTree.tsx`
lines 315-329): while the transition exceeds `0.7`, with per-frame
probability `0.02` (the Boolean `roll` models the outcome of
`Math.random() < 0.02`) the growth accumulator advances by `delta * 0.8`,
capped at `driftMaxHeight`; the live position is the componentwise lerp from
the chaos position, the y target being the formed y plus the (updated)
growth accumulator.  Returns the updated particle and the written live
position. -/
def snowFrame (m : JSMath) (t delta : ℚ) (roll : Bool) (p : SnowParticle) :
    SnowParticle × Vec3 :=
  let g := if t > 7/10 ∧ roll = true then
             min (driftMaxHeight m p) (p.growth + delta * (4/5))
           else p.growth
  let targetY := p.pos.y + g
  (⟨p.pos, p.chaos, p.variation, g⟩,
   ⟨lerp p.chaos.x p.pos.x t, lerp p.chaos.y targetY t, lerp p.chaos.z p.pos.z t⟩)

/-- The per-frame transition update of `LuxuryTree.tsx` lines 280-282:
`newTransition = THREE.MathUtils.lerp(transition, target, delta * 1.5)`. -/
def transStep (transition target delta : ℚ) : ℚ :=
  lerp transition target (delta * (3/2))

theorem lerp_zero (x y : ℚ) : lerp x y 0 = x := by simp [lerp]

theorem lerp_one (x y : ℚ) : lerp x y 1 = y := by simp [lerp]

theorem lerpV_zero (c p : Vec3) : lerpV c p 0 = c := by
  simp [lerpV, lerp_zero]

theorem lerpV_one (c p : Vec3) : lerpV c p 1 = p := by
  simp [lerpV, lerp_one]

theorem groupLiveFrame_zero (chaos formed : List Vec3)
    (h : chaos.length = formed.length) : groupLiveFrame chaos formed 0 = chaos := by
  induction chaos generalizing formed with
  | nil => simp [groupLiveFrame]
  | cons c cs ih =>
    cases formed with
    | nil => simp at h
    | cons p ps =>
      simp only [List.length_cons, Nat.succ.injEq] at h
      show lerpV c p 0 :: groupLiveFrame cs ps 0 = c :: cs
      rw [lerpV_zero, ih ps h]

theorem groupLiveFrame_one (chaos formed : List Vec3)
    (h : chaos.length = formed.length) : groupLiveFrame chaos formed 1 = formed := by
  induction chaos generalizing formed with
  | nil =>
    cases formed with
    | nil => simp [groupLiveFrame]
    | cons p ps => simp at h
  | cons c cs ih =>
    cases formed with
    | nil => simp at h
    | cons p ps =>
      simp only [List.length_cons, Nat.succ.injEq] at h
      show lerpV c p 1 :: groupLiveFrame cs ps 1 = p :: ps
      rw [lerpV_one, ih ps h]

/-- C1: for every particle group buffer (foliage, trunk, ribbon — all three
loops write `lerp(chaos, formed, t)` componentwise) at transition exactly 0
every live position equals the chaos position, and at transition exactly 1
every live position equals the formed position; for a snow-base particle the
live position at 0 is its chaos position and at 1 its formed position with
the y component raised by the particle's current (post-update) growth
accumulator. -/
theorem liveFrame_at_bounds (chaos formed : List Vec3)
    (h : chaos.length = formed.length) (m : JSMath) (delta : ℚ) (roll : Bool)
    (p : SnowParticle) :
    groupLiveFrame chaos formed 0 = chaos ∧
    groupLiveFrame chaos formed 1 = formed ∧
    (snowFrame m 0 delta roll p).2 = p.chaos ∧
    (snowFrame m 1 delta roll p).2 =
      ⟨p.pos.x, p.pos.y + (snowFrame m 1 delta roll p).1.growth, p.pos.z⟩ := by
  refine ⟨groupLiveFrame_zero chaos formed h, groupLiveFrame_one chaos formed h, ?_, ?_⟩
  · simp [snowFrame, lerp_zero]
  · simp [snowFrame, lerp_one]

/-- Witness for `liveFrame_at_bounds` at concrete buffers. -/
theorem liveFrame_at_bounds_witness :
    ([⟨1, 2, 3⟩] : List Vec3).length = ([⟨4, 5, 6⟩] : List Vec3).length ∧
    groupLiveFrame [⟨1, 2, 3⟩] [⟨4, 5, 6⟩] 0 = [⟨1, 2, 3⟩] := by
  have h : ([⟨1, 2, 3⟩] : List Vec3).length = ([⟨4, 5, 6⟩] : List Vec3).length := rfl
  exact ⟨h, (liveFrame_at_bounds [⟨1, 2, 3⟩] [⟨4, 5, 6⟩] h
    ⟨id, id, id, id, fun a _ => a, 3⟩ 1 false ⟨⟨0, 0, 0⟩, ⟨0, 0, 0⟩, 0, 0⟩).1⟩

/-- C2 (counterexample): the claim that the transition update stays within
`[0, 1]` and moves monotonically toward the target for every positive delta
fails: at transition 0, target 1 and delta 1 the lerp factor is 1.5 and the
update jumps to 1.5, overshooting the target and leaving `[0, 1]`. -/
theorem transStep_overshoots : transStep 0 1 1 = 3/2 ∧ ¬ transStep 0 1 1 ≤ 1 := by
  norm_num [transStep, lerp]

/-- C2 (amended): whenever the lerp factor `delta * 1.5` is at most 1 (that
is, `delta ≤ 2/3`), the transition update stays between the current value
and the target, hence remains within `[0, 1]` and moves monotonically toward
the target between target changes. -/
theorem transStep_monotone_bounded (x target d : ℚ)
    (hx0 : 0 ≤ x) (hx1 : x ≤ 1) (ht0 : 0 ≤ target) (ht1 : target ≤ 1)
    (hd0 : 0 ≤ d) (hd : d ≤ 2/3) :
    (0 ≤ transStep x target d ∧ transStep x target d ≤ 1) ∧
    (x ≤ target → x ≤ transStep x target d ∧ transStep x target d ≤ target) ∧
    (target ≤ x → target ≤ transStep x target d ∧ transStep x target d ≤ x) := by
  have hf0 : 0 ≤ d * (3/2) := by linarith
  have hf1 : d * (3/2) ≤ 1 := by linarith
  simp only [transStep, lerp]
  refine ⟨⟨by nlinarith, by nlinarith⟩, fun hxt => ⟨by nlinarith, by nlinarith⟩,
    fun htx => ⟨by nlinarith, by nlinarith⟩⟩

/-- Witness for `transStep_monotone_bounded` at a concrete step. -/
theorem transStep_monotone_bounded_witness :
    ((0 : ℚ) ≤ 0 ∧ (0 : ℚ) ≤ 1 ∧ (0 : ℚ) ≤ 1 ∧ (1 : ℚ) ≤ 1 ∧
      (0 : ℚ) ≤ 1/2 ∧ (1/2 : ℚ) ≤ 2/3) ∧
    (0 ≤ transStep 0 1 (1/2) ∧ transStep 0 1 (1/2) ≤ 1) := by
  refine ⟨by norm_num, ?_⟩
  exact (transStep_monotone_bounded 0 1 (1/2) (by norm_num) (by norm_num)
    (by norm_num) (by norm_num) (by norm_num) (by norm_num)).1

/-- A 2-D landmark point (MediaPipe hand landmarks are consumed through
their `x` / `y` fields only). -/
structure Pt where
  x : ℚ
  y : ℚ
  deriving DecidableEq

/-- A detected hand: the list of its 21 landmarks.  Landmark access
`h[i]` is embedded as `nth h i` (out-of-range access never occurs on real
detector output; `getD` totalizes it). -/
abbrev Hand := List Pt

/-- Landmark access `h[i]`. -/
def nth (h : Hand) (i : ℕ) : Pt := h.getD i ⟨0, 0⟩

/-- Squared planar distance between two landmarks. -/
def sqDistPt (a b : Pt) : ℚ := (a.x - b.x) ^ 2 + (a.y - b.y) ^ 2

/-- Embeds `Math.sqrt(dx^2 + dy^2) < r` for a positive threshold `r`, as the
equivalent squared comparison. -/
def distLtB (a b : Pt) (r : ℚ) : Bool := decide (sqDistPt a b < r ^ 2)

/-- Embeds `Math.sqrt(dx^2 + dy^2) > r` for a positive threshold `r`. -/
def distGtB (a b : Pt) (r : ℚ) : Bool := decide (sqDistPt a b > r ^ 2)

/-- `isFist` of `HandController.tsx` (primary variant, lines 107-111): all
four fingertip-to-wrist distances below `0.14`. -/
def isFist (h : Hand) : Bool :=
  [8, 12, 16, 20].all fun tip => distLtB (nth h tip) (nth h 0) (14/100)

/-- `isOpen` of `HandController.tsx` (primary variant, lines 113-117): all
four fingertip-to-wrist distances above `0.18`. -/
def isOpen (h : Hand) : Bool :=
  [8, 12, 16, 20].all fun tip => distGtB (nth h tip) (nth h 0) (18/100)

/-- `isPointing` of `HandController.tsx` (primary variant, lines 119-126). -/
def isPointing (h : Hand) : Bool :=
  distGtB (nth h 8) (nth h 0) (22/100) &&
    ([12, 16, 20].all fun tip => distLtB (nth h tip) (nth h 0) (16/100))

/-- `getPinchDist(hand) < 0.1` of `HandController.tsx` (primary variant,
lines 128-130 and 162). -/
def pinchingNowB (h : Hand) : Bool := distLtB (nth h 4) (nth h 8) (1/10)

/-- The mutable refs of the primary `HandController` variant that
`processGestures` reads and writes (lines 27-34). -/
structure GState where
  lastX : Option ℚ
  lastY : Option ℚ
  isPinching : Bool
  lastPinchTime : ℚ
  dualOpenFrames : ℕ
  fistFrames : ℕ
  deriving DecidableEq

/-- Initial ref values of the primary variant (lines 27-34). -/
def initGState : GState := ⟨none, none, false, 0, 0, 0⟩

/-- `STABILITY_THRESHOLD` of the primary variant (line 32). -/
def STABILITY_THRESHOLD : ℕ := 6

/-- One processed video frame: the detected hands and the value `Date.now()`
returns during that frame. -/
structure Frame where
  hands : List Hand
  now : ℚ

/-- The discrete callback invocations `processGestures` can make. -/
inductive Ev where
  | chaos
  | form
  | drag (dx : ℚ)
  | zoom (dy : ℚ)
  | pinch
  | doublePinch
  | pinchSwipeDismiss
  deriving DecidableEq

/-- `processGestures` of the primary `HandController` variant (lines
104-213), as a step function from the ref state and one frame of detector
results to the updated ref state and the list of callback invocations, in
source order (movement events, then the pinch-start event, then the fist
event).  The `gestureStatus` React state is presentation-only and omitted.
Zero hands resets the position refs, the pinching flag and both stability
counters (lines 132-140); two hands runs the dual-open logic and returns
(lines 143-158); otherwise the single-hand logic runs on `hands[0]`. -/
def processGestures (s : GState) (f : Frame) : GState × List Ev :=
  match f.hands with
  | [] =>
    ({ s with isPinching := false, lastX := none, lastY := none,
              dualOpenFrames := 0, fistFrames := 0 }, [])
  | [h0, h1] =>
    if isOpen h0 && isOpen h1 then
      let d := s.dualOpenFrames + 1
      if d > STABILITY_THRESHOLD then
        ({ s with dualOpenFrames := 0, lastX := none, isPinching := false }, [Ev.chaos])
      else
        ({ s with dualOpenFrames := d, lastX := none, isPinching := false }, [])
    else
      ({ s with dualOpenFrames := 0, lastX := none, isPinching := false }, [])
  | hand :: _ =>
    let pinchingNow := pinchingNowB hand
    let pointingNow := !pinchingNow && isPointing hand
    let fistNow := isFist hand
    let currentX := (nth hand 0).x
    let currentY := (nth hand 0).y
    let moveEvs : List Ev :=
      match s.lastX, s.lastY with
      | some lx, some ly =>
        let dx := currentX - lx
        let dy := currentY - ly
        if pinchingNow then []
        else if pointingNow then [Ev.drag (-dx)]
        else if isOpen hand then
          (if |dy| > |dx| * (3/2) then [Ev.zoom (dy * (3/2))] else [])
        else []
      | _, _ => []
    let pinchStep : List Ev × ℚ :=
      if pinchingNow && !s.isPinching then
        if f.now - s.lastPinchTime < 450 then ([Ev.doublePinch], 0)
        else ([Ev.pinch], f.now)
      else ([], s.lastPinchTime)
    let fistStep : List Ev × ℕ :=
      if fistNow then
        let c := s.fistFrames + 1
        if c > STABILITY_THRESHOLD then ([Ev.form], 0) else ([], c)
      else ([], 0)
    ({ lastX := some currentX, lastY := some currentY, isPinching := pinchingNow,
       lastPinchTime := pinchStep.2, dualOpenFrames := s.dualOpenFrames,
       fistFrames := fistStep.2 },
     moveEvs ++ pinchStep.1 ++ fistStep.1)

/-- Runs `processGestures` over a sequence of frames, threading the ref
state and concatenating the emitted callback invocations. -/
def runGestures (s : GState) (fs : List Frame) : GState × List Ev :=
  match fs with
  | [] => (s, [])
  | f :: rest =>
    let r1 := processGestures s f
    let r2 := runGestures r1.1 rest
    (r2.1, r1.2 ++ r2.2)

/-- `isFist` of the second `HandController` variant (lines 374-381):
fingertip-to-knuckle distances below `0.11`. -/
def isFist2 (h : Hand) : Bool :=
  [(8, 5), (12, 9), (16, 13), (20, 17)].all fun tb =>
    distLtB (nth h tb.1) (nth h tb.2) (11/100)

/-- `isPinch` of the second variant (lines 383-392): thumb-to-index distance
at most `0.05` and the other three fingertips curled toward their bases. -/
def isPinch2 (h : Hand) : Bool :=
  !(distGtB (nth h 4) (nth h 8) (5/100)) &&
    ([(12, 9), (16, 13), (20, 17)].all fun tb =>
      distLtB (nth h tb.1) (nth h tb.2) (13/100))

/-- `isOpen` of the second variant (lines 394-398): fingertip-to-wrist
distances above `0.19`. -/
def isOpen2 (h : Hand) : Bool :=
  [8, 12, 16, 20].all fun tip => distGtB (nth h tip) (nth h 0) (19/100)

/-- The mutable refs of the second `HandController` variant (lines
291-301). -/
structure GState2 where
  lastX : Option ℚ
  lastY : Option ℚ
  isPinching : Bool
  pinchStartX : Option ℚ
  lastPinchTime : ℚ
  dualOpenFrames : ℕ
  fistFrames : ℕ
  deriving DecidableEq

/-- `STABILITY_THRESHOLD` of the second variant (line 299). -/
def STABILITY_THRESHOLD2 : ℕ := 5

/-- `processGestures` of the second `HandController` variant (lines
371-487).  Differences from the primary variant: zero hands clears the
position refs, the pinch-start ref and the pinching flag but not the
stability counters (lines 400-407); the dual-open branch only runs when both
hands are open, otherwise control falls through to the single-hand logic on
`hands[0]`; the reference point is the index-finger tip (landmark 8); the
fist counter only advances once a last position exists; a held pinch moved
horizontally by more than `0.14` while focus is active emits a pinch-swipe
dismiss.  When `lastYRef.current` is `null` while `lastXRef.current` is not
(never reachable, since both are set together), JS coerces `null` to 0 in
the subtraction; the embedding mirrors that with `getD 0`. -/
def processGestures2 (isFocusActive : Bool) (s : GState2) (f : Frame) :
    GState2 × List Ev :=
  match f.hands with
  | [] =>
    ({ s with isPinching := false, pinchStartX := none,
              lastX := none, lastY := none }, [])
  | h0 :: rest =>
    if rest.length == 1 && isOpen2 h0 && isOpen2 (rest.getD 0 []) then
      let d := s.dualOpenFrames + 1
      if d > STABILITY_THRESHOLD2 then
        ({ s with dualOpenFrames := 0 }, [Ev.chaos])
      else
        ({ s with dualOpenFrames := d }, [])
    else
      let activeHand := h0
      let fistNow := isFist2 activeHand
      let pinchingNow := !fistNow && isPinch2 activeHand
      let currentX := (nth activeHand 8).x
      let currentY := (nth activeHand 8).y
      let pinchStartX1 : Option ℚ := if !pinchingNow then none else s.pinchStartX
      let mainStep : List Ev × ℕ × Option ℚ :=
        match s.lastX with
        | some lx =>
          let dx := currentX - lx
          let dy := currentY - s.lastY.getD 0
          if fistNow then
            let c := s.fistFrames + 1
            if c > STABILITY_THRESHOLD2 then ([Ev.form], 0, pinchStartX1)
            else ([], c, pinchStartX1)
          else
            if pinchingNow then
              if isFocusActive then
                match pinchStartX1 with
                | none => ([], 0, some currentX)
                | some psx =>
                  if |currentX - psx| > 14/100 then ([Ev.pinchSwipeDismiss], 0, none)
                  else ([], 0, some psx)
              else ([], 0, pinchStartX1)
            else if isOpen2 activeHand then
              ((if |dx| > |dy| then [Ev.drag (-dx)] else [Ev.zoom (dy * (3/2))]),
               0, pinchStartX1)
            else ([], 0, pinchStartX1)
        | none => ([], s.fistFrames, pinchStartX1)
      let pinchStep : List Ev × ℚ :=
        if pinchingNow && !s.isPinching then
          if f.now - s.lastPinchTime < 450 then ([Ev.doublePinch], 0)
          else ([Ev.pinch], f.now)
        else ([], s.lastPinchTime)
      ({ lastX := some currentX, lastY := some currentY, isPinching := pinchingNow,
         pinchStartX := mainStep.2.2, lastPinchTime := pinchStep.2,
         dualOpenFrames := s.dualOpenFrames, fistFrames := mainStep.2.1 },
       mainStep.1 ++ pinchStep.1)

/-- C5 (counterexample): a zero-hands frame does not reset every stability
counter.  In the second classifier variant, from a state whose dual-open and
fist counters are both 3, processing a frame with zero detected hands leaves
both counters at 3 (the zero-hands branch, lines 400-407, clears only the
position refs, the pinch-start ref and the pinching flag). -/
theorem zeroHands_keeps_counters_v2 :
    (processGestures2 false ⟨none, none, false, none, 0, 3, 3⟩ ⟨[], 0⟩).1.dualOpenFrames = 3 ∧
    (processGestures2 false ⟨none, none, false, none, 0, 3, 3⟩ ⟨[], 0⟩).1.fistFrames = 3 := by
  constructor <;> rfl

/-- C5 (amended): in the primary classifier a zero-hands frame resets both
stability counters to 0, clears both last-position refs and the pinching
flag, and emits nothing; in the second variant it clears the last-position
refs, the pinch-start ref and the pinching flag and emits nothing, but
leaves the dual-open and fist counters unchanged. -/
theorem zeroHands_reset (s : GState) (s2 : GState2) (t t2 : ℚ) (focusActive : Bool) :
    ((processGestures s ⟨[], t⟩).1.dualOpenFrames = 0 ∧
     (processGestures s ⟨[], t⟩).1.fistFrames = 0 ∧
     (processGestures s ⟨[], t⟩).1.lastX = none ∧
     (processGestures s ⟨[], t⟩).1.lastY = none ∧
     (processGestures s ⟨[], t⟩).1.isPinching = false ∧
     (processGestures s ⟨[], t⟩).2 = []) ∧
    ((processGestures2 focusActive s2 ⟨[], t2⟩).1.lastX = none ∧
     (processGestures2 focusActive s2 ⟨[], t2⟩).1.lastY = none ∧
     (processGestures2 focusActive s2 ⟨[], t2⟩).1.pinchStartX = none ∧
     (processGestures2 focusActive s2 ⟨[], t2⟩).1.isPinching = false ∧
     (processGestures2 focusActive s2 ⟨[], t2⟩).1.dualOpenFrames = s2.dualOpenFrames ∧
     (processGestures2 focusActive s2 ⟨[], t2⟩).1.fistFrames = s2.fistFrames ∧
     (processGestures2 focusActive s2 ⟨[], t2⟩).2 = []) := by
  refine ⟨⟨rfl, rfl, rfl, rfl, rfl, rfl⟩, rfl, rfl, rfl, rfl, rfl, rfl, rfl⟩

/-- A frame that reaches the single-hand branch of the primary
`processGestures` with `pinchingNow` true (mirrors the branch structure of
the source: zero hands and exactly two hands never reach the pinch-start
logic). -/
def isSinglePinchFrame (f : Frame) : Bool :=
  match f.hands with
  | [] => false
  | [_, _] => false
  | h :: _ => pinchingNowB h

theorem processGestures_no_pinch (s : GState) (f : Frame)
    (hf : isSinglePinchFrame f = false) :
    (processGestures s f).2.count Ev.pinch = 0 ∧
    (processGestures s f).2.count Ev.doublePinch = 0 ∧
    (processGestures s f).1.lastPinchTime = s.lastPinchTime ∧
    (processGestures s f).1.isPinching = false := by
  obtain ⟨hands, now⟩ := f
  obtain ⟨lx, ly, ip, lpt, dof, ff⟩ := s
  cases hands with
  | nil => exact ⟨rfl, rfl, rfl, rfl⟩
  | cons h rest =>
    cases rest with
    | nil =>
      simp only [isSinglePinchFrame] at hf
      cases lx <;> cases ly <;>
        simp [processGestures, hf, List.count_cons, List.count_nil] <;>
        split_ifs <;> simp [List.count_cons, List.count_nil]
    | cons h1 rest2 =>
      cases rest2 with
      | nil =>
        simp only [processGestures]
        split_ifs <;> simp [List.count_cons, List.count_nil]
      | cons h2 rest3 =>
        simp only [isSinglePinchFrame] at hf
        cases lx <;> cases ly <;>
          simp [processGestures, hf, List.count_cons, List.count_nil] <;>
          split_ifs <;> simp [List.count_cons, List.count_nil]

theorem runGestures_append (s : GState) (as bs : List Frame) :
    runGestures s (as ++ bs) =
      ((runGestures (runGestures s as).1 bs).1,
       (runGestures s as).2 ++ (runGestures (runGestures s as).1 bs).2) := by
  induction as generalizing s with
  | nil => simp [runGestures]
  | cons f rest ih =>
    simp only [List.cons_append, runGestures, List.append_eq, ih, List.append_assoc]

theorem runGestures_no_pinch (fs : List Frame) (s : GState)
    (hfs : ∀ f ∈ fs, isSinglePinchFrame f = false) :
    (runGestures s fs).2.count Ev.pinch = 0 ∧
    (runGestures s fs).2.count Ev.doublePinch = 0 ∧
    (runGestures s fs).1.lastPinchTime = s.lastPinchTime ∧
    (fs ≠ [] → (runGestures s fs).1.isPinching = false) := by
  induction fs generalizing s with
  | nil => simp [runGestures]
  | cons f rest ih =>
    have h1 := processGestures_no_pinch s f (hfs f (by simp))
    have h2 := ih (processGestures s f).1 (fun g hg => hfs g (by simp [hg]))
    refine ⟨?_, ?_, ?_, fun _ => ?_⟩
    · simp only [runGestures, List.count_append]
      omega
    · simp only [runGestures, List.count_append]
      omega
    · show (runGestures (processGestures s f).1 rest).1.lastPinchTime = s.lastPinchTime
      rw [h2.2.2.1, h1.2.2.1]
    · show (runGestures (processGestures s f).1 rest).1.isPinching = false
      cases rest with
      | nil => simpa [runGestures] using h1.2.2.2
      | cons g gs => exact h2.2.2.2 (by simp)

theorem processGestures_pinch_edge_far (s : GState) (h : Hand) (t : ℚ)
    (hp : pinchingNowB h = true) (hip : s.isPinching = false)
    (ht : ¬ t - s.lastPinchTime < 450) :
    (processGestures s ⟨[h], t⟩).2.count Ev.pinch = 1 ∧
    (processGestures s ⟨[h], t⟩).2.count Ev.doublePinch = 0 ∧
    (processGestures s ⟨[h], t⟩).1.lastPinchTime = t := by
  obtain ⟨lx, ly, ip, lpt, dof, ff⟩ := s
  simp only at hip ht
  subst hip
  cases lx <;> cases ly <;>
    simp [processGestures, hp, ht, List.count_cons, List.count_nil] <;>
    split_ifs <;> simp [List.count_cons, List.count_nil]

theorem processGestures_pinch_edge_near (s : GState) (h : Hand) (t : ℚ)
    (hp : pinchingNowB h = true) (hip : s.isPinching = false)
    (ht : t - s.lastPinchTime < 450) :
    (processGestures s ⟨[h], t⟩).2.count Ev.pinch = 0 ∧
    (processGestures s ⟨[h], t⟩).2.count Ev.doublePinch = 1 := by
  obtain ⟨lx, ly, ip, lpt, dof, ff⟩ := s
  simp only at hip ht
  subst hip
  cases lx <;> cases ly <;>
    simp [processGestures, hp, ht, List.count_cons, List.count_nil] <;>
    split_ifs <;> simp [List.count_cons, List.count_nil]

/-- A concrete hand whose 21 landmarks coincide: its thumb-to-index distance
is 0, so `pinchingNow` holds (it also satisfies the fist predicate). -/
def zeroHand : Hand := List.replicate 21 ⟨0, 0⟩

/-- A concrete hand with the thumb tip moved away: thumb-to-index distance 1,
so `pinchingNow` is false, and it is neither pointing nor open. -/
def noPinchHand : Hand := (List.replicate 21 (⟨0, 0⟩ : Pt)).set 4 ⟨1, 0⟩

/-- C3 (counterexample): a frame sequence with exactly two pinch-transition
events 200 ms apart (at times 1000 and 1200, with a non-pinching frame in
between) fires the single-pinch callback once — not zero times as claimed —
and the double-pinch callback once: the first transition always goes through
the `else` branch (`onPinch`) because the stored pinch timestamp is initially
0, and only the second transition is reclassified as a double pinch. -/
theorem two_pinch_transitions_fire_single_once :
    (runGestures initGState
      [⟨[zeroHand], 1000⟩, ⟨[noPinchHand], 1100⟩, ⟨[zeroHand], 1200⟩]).2.count Ev.pinch = 1 ∧
    (runGestures initGState
      [⟨[zeroHand], 1000⟩, ⟨[noPinchHand], 1100⟩, ⟨[zeroHand], 1200⟩]).2.count Ev.doublePinch = 1 := by
  constructor <;> with_unfolding_all decide

/-- C3 (amended): over a frame sequence containing exactly two
pinch-transition events — a single-hand pinching frame at time `t1` at least
450 ms after the initial (zero) pinch timestamp, then one or more frames
that do not reach the single-hand branch with a pinching hand, then a
single-hand pinching frame at time `t2` with `t2 - t1 < 450` — the
classifier fires the single-pinch callback exactly once (at the first
transition) and the double-pinch callback exactly once (at the second
transition, which is reclassified). -/
theorem double_pinch_within_window (h1 h2 : Hand) (mid : List Frame) (t1 t2 : ℚ)
    (hp1 : pinchingNowB h1 = true) (hp2 : pinchingNowB h2 = true)
    (ht1 : 450 ≤ t1) (ht2 : t2 - t1 < 450) (hmid : mid ≠ [])
    (hmidp : ∀ f ∈ mid, isSinglePinchFrame f = false) :
    (runGestures initGState
      (⟨[h1], t1⟩ :: mid ++ [⟨[h2], t2⟩])).2.count Ev.pinch = 1 ∧
    (runGestures initGState
      (⟨[h1], t1⟩ :: mid ++ [⟨[h2], t2⟩])).2.count Ev.doublePinch = 1 := by
  have hfar : ¬ t1 - initGState.lastPinchTime < 450 := by
    simp only [initGState]
    intro hc
    linarith
  have e1 := processGestures_pinch_edge_far initGState h1 t1 hp1 rfl hfar
  set s1 := (processGestures initGState ⟨[h1], t1⟩).1 with hs1
  have emid := runGestures_no_pinch mid s1 hmidp
  set sm := (runGestures s1 mid).1 with hsm
  have hsmp : sm.isPinching = false := emid.2.2.2 hmid
  have hsmt : sm.lastPinchTime = t1 := by rw [emid.2.2.1, e1.2.2]
  have hnear : t2 - sm.lastPinchTime < 450 := by rw [hsmt]; exact ht2
  have e2 := processGestures_pinch_edge_near sm h2 t2 hp2 hsmp hnear
  have expand : runGestures initGState (⟨[h1], t1⟩ :: mid ++ [⟨[h2], t2⟩]) =
      ((runGestures (runGestures s1 mid).1 [⟨[h2], t2⟩]).1,
       (processGestures initGState ⟨[h1], t1⟩).2 ++
         ((runGestures s1 mid).2 ++ (runGestures (runGestures s1 mid).1 [⟨[h2], t2⟩]).2)) := by
    show runGestures initGState (⟨[h1], t1⟩ :: (mid ++ [⟨[h2], t2⟩])) = _
    simp only [runGestures, runGestures_append s1 mid [⟨[h2], t2⟩]]
  have expand2 : runGestures sm [⟨[h2], t2⟩] =
      ((runGestures (processGestures sm ⟨[h2], t2⟩).1 []).1,
       (processGestures sm ⟨[h2], t2⟩).2 ++ []) := by
    simp [runGestures]
  rw [expand]
  simp only [List.count_append, ← hsm, expand2, List.append_nil]
  constructor
  · rw [e1.1, emid.1, e2.1]
  · rw [e1.2.1, emid.2.1, e2.2]

/-- Witness for `double_pinch_within_window` at a concrete frame sequence. -/
theorem double_pinch_within_window_witness :
    (pinchingNowB zeroHand = true ∧ (450 : ℚ) ≤ 1000 ∧ (1200 : ℚ) - 1000 < 450 ∧
     ([⟨[noPinchHand], 1100⟩] : List Frame) ≠ [] ∧
     (∀ f ∈ ([⟨[noPinchHand], 1100⟩] : List Frame), isSinglePinchFrame f = false)) ∧
    ((runGestures initGState
        (⟨[zeroHand], 1000⟩ :: [⟨[noPinchHand], 1100⟩] ++ [⟨[zeroHand], 1200⟩])).2.count Ev.pinch = 1 ∧
     (runGestures initGState
        (⟨[zeroHand], 1000⟩ :: [⟨[noPinchHand], 1100⟩] ++ [⟨[zeroHand], 1200⟩])).2.count Ev.doublePinch = 1) := by
  refine ⟨⟨by with_unfolding_all decide, by norm_num, by norm_num, by simp,
    by with_unfolding_all decide⟩, ?_⟩
  exact double_pinch_within_window zeroHand zeroHand [⟨[noPinchHand], 1100⟩] 1000 1200
    (by with_unfolding_all decide) (by with_unfolding_all decide) (by norm_num) (by norm_num)
    (by simp) (by with_unfolding_all decide)

theorem processGestures_fist_step (s : GState) (h : Hand) (t : ℚ)
    (hf : isFist h = true) :
    (processGestures s ⟨[h], t⟩).2.count Ev.form =
      (if s.fistFrames + 1 > STABILITY_THRESHOLD then 1 else 0) ∧
    (processGestures s ⟨[h], t⟩).1.fistFrames =
      (if s.fistFrames + 1 > STABILITY_THRESHOLD then 0 else s.fistFrames + 1) := by
  obtain ⟨lx, ly, ip, lpt, dof, ff⟩ := s
  simp only
  cases lx <;> cases ly <;>
    simp [processGestures, hf, List.count_cons, List.count_nil] <;>
    split_ifs <;> simp_all [List.count_cons, List.count_nil]

theorem runGestures_fist_count (h : Hand) (hf : isFist h = true) (t : ℚ) :
    ∀ (j : ℕ) (s : GState), s.fistFrames ≤ STABILITY_THRESHOLD →
    (runGestures s (List.replicate j ⟨[h], t⟩)).2.count Ev.form =
      (s.fistFrames + j) / (STABILITY_THRESHOLD + 1) ∧
    (runGestures s (List.replicate j ⟨[h], t⟩)).1.fistFrames =
      (s.fistFrames + j) % (STABILITY_THRESHOLD + 1) := by
  intro j
  induction j with
  | zero =>
    intro s hs
    simp only [List.replicate, runGestures, List.count_nil]
    simp only [STABILITY_THRESHOLD] at hs ⊢
    constructor <;> omega
  | succ n ih =>
    intro s hs
    have hstep := processGestures_fist_step s h t hf
    have hnext : (processGestures s ⟨[h], t⟩).1.fistFrames ≤ STABILITY_THRESHOLD := by
      rw [hstep.2]
      split_ifs with hcond
      · exact Nat.zero_le _
      · omega
    have hrec := ih (processGestures s ⟨[h], t⟩).1 hnext
    simp only [List.replicate, runGestures, List.count_append]
    rw [hstep.1, hrec.1, hrec.2, hstep.2]
    simp only [STABILITY_THRESHOLD] at hs ⊢
    split_ifs with hcond
    · constructor <;> omega
    · constructor <;> omega

/-- C4 (counterexample): a single hand satisfying the fist predicate on
exactly `STABILITY_THRESHOLD` (= 6) consecutive frames fires the form-tree
callback zero times, not once: the counter only triggers when it strictly
exceeds the threshold, which first happens on frame 7. -/
theorem fist_six_frames_fire_nothing :
    (runGestures initGState
      (List.replicate STABILITY_THRESHOLD ⟨[zeroHand], 0⟩)).2.count Ev.form = 0 := by
  with_unfolding_all decide

/-- C4 (amended): in the primary classifier (`STABILITY_THRESHOLD` = 6), a
single hand satisfying the fist predicate on `j` consecutive frames starting
from the neutral state fires the form-tree callback exactly `j / 7` times:
zero times during the first 6 frames, for the first time on frame 7
(threshold + 1), and then once per further 7 frames — never once per frame —
with the counter resetting after each emission (the final counter value is
`j mod 7`). -/
theorem fist_fires_once_per_window (h : Hand) (t : ℚ) (j : ℕ)
    (hf : isFist h = true) :
    (runGestures initGState (List.replicate j ⟨[h], t⟩)).2.count Ev.form =
      j / (STABILITY_THRESHOLD + 1) ∧
    (runGestures initGState (List.replicate j ⟨[h], t⟩)).1.fistFrames =
      j % (STABILITY_THRESHOLD + 1) := by
  have hinit := runGestures_fist_count h hf t j initGState
    (by simp [initGState, STABILITY_THRESHOLD])
  simpa [initGState] using hinit

/-- Witness for `fist_fires_once_per_window`: seven consecutive fist frames
fire the callback exactly once. -/
theorem fist_fires_once_per_window_witness :
    isFist zeroHand = true ∧
    ((runGestures initGState (List.replicate 7 ⟨[zeroHand], 0⟩)).2.count Ev.form =
        7 / (STABILITY_THRESHOLD + 1) ∧
     (runGestures initGState (List.replicate 7 ⟨[zeroHand], 0⟩)).1.fistFrames =
        7 % (STABILITY_THRESHOLD + 1)) :=
  ⟨by with_unfolding_all decide,
   fist_fires_once_per_window zeroHand 0 7 (by with_unfolding_all decide)⟩

/-- `TREE_PARAMS.HEIGHT` of `constants.ts`. -/
def TREE_HEIGHT : ℚ := 12

/-- `TREE_PARAMS.BASE_RADIUS` of `constants.ts`. -/
def BASE_RADIUS : ℚ := 9/2

/-- JavaScript `%` on numbers: remainder with the sign of the dividend,
`a % b = a - b * trunc(a / b)` (used here only with nonnegative operands). -/
def jsMod (a b : ℚ) : ℚ :=
  a - b * (if 0 ≤ a / b then (⌊a / b⌋ : ℚ) else (⌈a / b⌉ : ℚ))

/-- `TREE_RADIUS_FACTOR` of `LuxuryTree.tsx` line 610:
`h ↦ TREE_PARAMS.BASE_RADIUS * Math.pow(1 - h, 0.85) * 1.1`. -/
def TREE_RADIUS_FACTOR (m : JSMath) (h : ℚ) : ℚ :=
  BASE_RADIUS * m.pow (1 - h) (85/100) * (11/10)

/-- The deterministic local position of the photo ornament at `index`
(`App.tsx` lines 247-250, identical to `PhotoOrnament` in `LuxuryTree.tsx`):
`angle = index*1.5 + π`, `h = 0.25 + (index*0.12) % 0.55`,
`r = TREE_RADIUS_FACTOR(h)`, position
`(cos(angle)*r, h*HEIGHT, sin(angle)*r)`. -/
def photoLocal (m : JSMath) (index : ℕ) : Vec3 :=
  let angle := (index : ℚ) * (3/2) + m.pi
  let h := 1/4 + jsMod ((index : ℚ) * (12/100)) (55/100)
  let r := TREE_RADIUS_FACTOR m h
  ⟨m.cos angle * r, h * TREE_HEIGHT, m.sin angle * r⟩

/-- An affine world matrix (a `THREE.Object3D.matrixWorld`, whose bottom row
is always `(0,0,0,1)`), applied to a point as `Vector3.applyMatrix4` does
(with the perspective divisor `w = 1`). -/
structure Aff where
  n11 : ℚ
  n12 : ℚ
  n13 : ℚ
  n14 : ℚ
  n21 : ℚ
  n22 : ℚ
  n23 : ℚ
  n24 : ℚ
  n31 : ℚ
  n32 : ℚ
  n33 : ℚ
  n34 : ℚ

/-- `THREE.Vector3.applyMatrix4` for an affine matrix. -/
def Aff.apply (e : Aff) (v : Vec3) : Vec3 :=
  ⟨e.n11 * v.x + e.n12 * v.y + e.n13 * v.z + e.n14,
   e.n21 * v.x + e.n22 * v.y + e.n23 * v.z + e.n24,
   e.n31 * v.x + e.n32 * v.y + e.n33 * v.z + e.n34⟩

/-- The identity world matrix. -/
def affId : Aff := ⟨1, 0, 0, 0, 0, 1, 0, 0, 0, 0, 1, 0⟩

/-- Squared Euclidean distance between two points. -/
def sqDist3 (a b : Vec3) : ℚ :=
  (a.x - b.x) ^ 2 + (a.y - b.y) ^ 2 + (a.z - b.z) ^ 2

/-- `THREE.Vector3.distanceTo`: the square root (the opaque `m.sqrt`
primitive) of the squared Euclidean distance. -/
def distanceTo (m : JSMath) (a b : Vec3) : ℚ := m.sqrt (sqDist3 a b)

/-- The world position of the photo ornament at `index` after applying the
rotation group's world matrix (`App.tsx` lines 250-252). -/
def photoWorld (m : JSMath) (mat : Aff) (index : ℕ) : Vec3 :=
  mat.apply (photoLocal m index)

/-- The `(url, dist)` pairs the `photos.forEach` loop of `handlePinchFocus`
iterates over, in index order (`App.tsx` lines 246-254). -/
def photoEntries (m : JSMath) (mat : Aff) (camPos : Vec3) (photos : List String) :
    List (String × ℚ) :=
  photos.enum.map fun iu => (iu.2, distanceTo m (photoWorld m mat iu.1) camPos)

/-- The accumulator loop of `handlePinchFocus` (`App.tsx` lines 243-259):
`nearestUrl` starts `null` and `minDist` starts `Infinity` (the `⊤` of
`WithTop ℚ`); each entry with `dist < minDist` (strict) replaces both. -/
def nearestScan (entries : List (String × ℚ)) : Option String × WithTop ℚ :=
  entries.foldl
    (fun acc e => if (e.2 : WithTop ℚ) < acc.2 then (some e.1, (e.2 : WithTop ℚ)) else acc)
    (none, ⊤)

/-- JavaScript truthiness of a `string | null` value: `null` and the empty
string are falsy. -/
def truthyStr (o : Option String) : Bool :=
  match o with
  | none => false
  | some u => u ≠ ""

/-- `handlePinchFocus` of `App.tsx` (lines 236-264), returning the argument
of the `setFocusedPhoto` call it makes, or `none` when it makes none.  The
guard returns early when a photo is already focused (truthy), the photo list
is empty, or the camera / rotation-group refs are unset (the latter two are
parameters here, hence always set); otherwise the nearest-ornament scan runs
and `setFocusedPhoto(nearestUrl)` fires iff `nearestUrl` is truthy. -/
def handlePinchFocus (m : JSMath) (focusedPhoto : Option String)
    (photos : List String) (mat : Aff) (camPos : Vec3) : Option String :=
  if truthyStr focusedPhoto || photos.length == 0 then none
  else
    let nearestUrl := (nearestScan (photoEntries m mat camPos photos)).1
    if truthyStr nearestUrl then nearestUrl else none

/-- `handleDoublePinch` of `App.tsx` (lines 230-234): dispatches the global
dismiss event iff a photo is focused (truthy); returns whether it
dispatched. -/
def handleDoublePinch (focusedPhoto : Option String) : Bool :=
  truthyStr focusedPhoto

/-- The camera/orbit state the `App` gesture handlers read and write: the
rotation group's yaw, the rotation velocity ref, and the zoom target ref. -/
structure OrbitState where
  rotationY : ℚ
  rotationVelocity : ℚ
  zoomTarget : ℚ
  deriving DecidableEq

/-- The `onDrag` handler of `App.tsx` (lines 303-309): ignored while a photo
is focused (truthy); otherwise adds `dx * 12` to the yaw and sets the
rotation velocity to `dx * 18`. -/
def onDrag (focusedPhoto : Option String) (s : OrbitState) (dx : ℚ) : OrbitState :=
  if truthyStr focusedPhoto then s
  else { s with rotationY := s.rotationY + dx * 12, rotationVelocity := dx * 18 }

/-- The `onZoom` handler of `App.tsx` (lines 310-312): ignored while a photo
is focused (truthy); otherwise moves the zoom target by `dy * 6`, clamped to
`[10, 35]`. -/
def onZoom (focusedPhoto : Option String) (s : OrbitState) (dy : ℚ) : OrbitState :=
  if truthyStr focusedPhoto then s
  else { s with zoomTarget := max 10 (min 35 (s.zoomTarget + dy * 6)) }

/-- One step of the `handlePinchFocus` accumulator loop. -/
def scanStep (acc : Option String × WithTop ℚ) (e : String × ℚ) :
    Option String × WithTop ℚ :=
  if (e.2 : WithTop ℚ) < acc.2 then (some e.1, (e.2 : WithTop ℚ)) else acc

theorem nearestScan_eq_foldl (entries : List (String × ℚ)) :
    nearestScan entries = entries.foldl scanStep (none, ⊤) := rfl

theorem foldl_scanStep_spec (l : List (String × ℚ)) :
    ∀ (u : String) (d : ℚ),
    (l.foldl scanStep (some u, (d : WithTop ℚ)) = (some u, (d : WithTop ℚ)) ∧
       ∀ e ∈ l, d ≤ e.2) ∨
    (∃ i, ∃ hi : i < l.length,
       l.foldl scanStep (some u, (d : WithTop ℚ)) =
         (some (l.get ⟨i, hi⟩).1, ((l.get ⟨i, hi⟩).2 : WithTop ℚ)) ∧
       (l.get ⟨i, hi⟩).2 < d ∧
       (∀ j, ∀ hj : j < l.length, j < i →
         (l.get ⟨i, hi⟩).2 < (l.get ⟨j, hj⟩).2) ∧
       (∀ j, ∀ hj : j < l.length, (l.get ⟨i, hi⟩).2 ≤ (l.get ⟨j, hj⟩).2)) := by
  induction l with
  | nil =>
    intro u d
    left
    exact ⟨rfl, by simp⟩
  | cons x xs ih =>
    intro u d
    by_cases hx : x.2 < d
    · have hstep : (x :: xs).foldl scanStep (some u, (d : WithTop ℚ)) =
          xs.foldl scanStep (some x.1, (x.2 : WithTop ℚ)) := by
        simp [List.foldl, scanStep, WithTop.coe_lt_coe, hx]
      rcases ih x.1 x.2 with ⟨heq, hall⟩ | ⟨i, hi, heq, hlt, hfirst, hmin⟩
      · right
        refine ⟨0, by simp, ?_, hx, ?_, ?_⟩
        · rw [hstep, heq]
          rfl
        · intro j hj hj0
          omega
        · intro j hj
          cases j with
          | zero => exact le_refl _
          | succ k =>
            exact hall (xs.get ⟨k, by simpa using hj⟩) (xs.get_mem _ _)
      · right
        refine ⟨i + 1, by simpa using hi, ?_, lt_trans hlt hx, ?_, ?_⟩
        · rw [hstep, heq]
          rfl
        · intro j hj hji
          cases j with
          | zero => exact hlt
          | succ k => exact hfirst k (by simpa using hj) (by omega)
        · intro j hj
          cases j with
          | zero => exact le_of_lt hlt
          | succ k => exact hmin k (by simpa using hj)
    · have hstep : (x :: xs).foldl scanStep (some u, (d : WithTop ℚ)) =
          xs.foldl scanStep (some u, (d : WithTop ℚ)) := by
        simp [List.foldl, scanStep, WithTop.coe_lt_coe, hx]
      rcases ih u d with ⟨heq, hall⟩ | ⟨i, hi, heq, hlt, hfirst, hmin⟩
      · left
        refine ⟨by rw [hstep, heq], ?_⟩
        intro e he
        rcases List.mem_cons.mp he with rfl | hmem
        · exact le_of_not_lt hx
        · exact hall e hmem
      · right
        refine ⟨i + 1, by simpa using hi, ?_, hlt, ?_, ?_⟩
        · rw [hstep, heq]
          rfl
        · intro j hj hji
          cases j with
          | zero => exact lt_of_lt_of_le hlt (le_of_not_lt hx)
          | succ k => exact hfirst k (by simpa using hj) (by omega)
        · intro j hj
          cases j with
          | zero => exact le_trans (le_of_lt hlt) (le_of_not_lt hx)
          | succ k => exact hmin k (by simpa using hj)

/-- The accumulator loop of `handlePinchFocus` selects the entry of least
distance, earliest entry first on exact ties (the comparison is a strict
`<` and the loop scans in ascending index order). -/
theorem nearestScan_spec (entries : List (String × ℚ)) (hne : entries ≠ []) :
    ∃ i, ∃ hi : i < entries.length,
      (nearestScan entries).1 = some (entries.get ⟨i, hi⟩).1 ∧
      (∀ j, ∀ hj : j < entries.length, j < i →
        (entries.get ⟨i, hi⟩).2 < (entries.get ⟨j, hj⟩).2) ∧
      (∀ j, ∀ hj : j < entries.length,
        (entries.get ⟨i, hi⟩).2 ≤ (entries.get ⟨j, hj⟩).2) := by
  cases entries with
  | nil => cases hne rfl
  | cons x xs =>
    have hstep : nearestScan (x :: xs) =
        xs.foldl scanStep (some x.1, (x.2 : WithTop ℚ)) := by
      rw [nearestScan_eq_foldl]
      simp [List.foldl, scanStep, WithTop.coe_lt_top]
    rcases foldl_scanStep_spec xs x.1 x.2 with ⟨heq, hall⟩ | ⟨i, hi, heq, hlt, hfirst, hmin⟩
    · refine ⟨0, by simp, ?_, ?_, ?_⟩
      · rw [hstep, heq]
        rfl
      · intro j hj hj0
        omega
      · intro j hj
        cases j with
        | zero => exact le_refl _
        | succ k =>
          exact hall (xs.get ⟨k, by simpa using hj⟩) (xs.get_mem _ _)
    · refine ⟨i + 1, by simpa using hi, ?_, ?_, ?_⟩
      · rw [hstep, heq]
        rfl
      · intro j hj hji
        cases j with
        | zero => exact hlt
        | succ k => exact hfirst k (by simpa using hj) (by omega)
      · intro j hj
        cases j with
        | zero => exact le_of_lt hlt
        | succ k => exact hmin k (by simpa using hj)

theorem photoEntries_length (m : JSMath) (mat : Aff) (camPos : Vec3)
    (photos : List String) :
    (photoEntries m mat camPos photos).length = photos.length := by
  simp [photoEntries]

theorem photoEntries_get (m : JSMath) (mat : Aff) (camPos : Vec3)
    (photos : List String) (i : ℕ) (hi : i < (photoEntries m mat camPos photos).length)
    (hip : i < photos.length) :
    (photoEntries m mat camPos photos).get ⟨i, hi⟩ =
      (photos.get ⟨i, hip⟩, distanceTo m (photoWorld m mat i) camPos) := by
  simp [photoEntries, List.get_eq_getElem, List.getElem_map, List.getElem_enum]

/-- Strict monotonicity of the square-root primitive on nonnegative inputs:
the defining property of `Math.sqrt` this development assumes when relating
the compared `distanceTo` values to squared Euclidean distances. -/
def SqrtStrictMono (m : JSMath) : Prop :=
  ∀ a b : ℚ, 0 ≤ a → 0 ≤ b → (m.sqrt a < m.sqrt b ↔ a < b)

theorem sqDist3_nonneg (a b : Vec3) : 0 ≤ sqDist3 a b := by
  have hx := sq_nonneg (a.x - b.x)
  have hy := sq_nonneg (a.y - b.y)
  have hz := sq_nonneg (a.z - b.z)
  simp only [sqDist3]
  linarith

theorem distanceTo_lt_iff (m : JSMath) (hm : SqrtStrictMono m) (a b c d : Vec3) :
    distanceTo m a b < distanceTo m c d ↔ sqDist3 a b < sqDist3 c d :=
  hm _ _ (sqDist3_nonneg a b) (sqDist3_nonneg c d)

theorem distanceTo_le_iff (m : JSMath) (hm : SqrtStrictMono m) (a b c d : Vec3) :
    distanceTo m a b ≤ distanceTo m c d ↔ sqDist3 a b ≤ sqDist3 c d := by
  rw [← not_lt, ← not_lt, distanceTo_lt_iff m hm]

theorem nearestPhoto_spec (m : JSMath) (hm : SqrtStrictMono m) (mat : Aff)
    (camPos : Vec3) (photos : List String) (hne : photos ≠ []) :
    ∃ i, ∃ hi : i < photos.length,
      (nearestScan (photoEntries m mat camPos photos)).1 = some (photos.get ⟨i, hi⟩) ∧
      (∀ j, j < photos.length →
        sqDist3 (photoWorld m mat i) camPos ≤ sqDist3 (photoWorld m mat j) camPos) ∧
      (∀ j, j < i →
        sqDist3 (photoWorld m mat i) camPos < sqDist3 (photoWorld m mat j) camPos) := by
  have hlen := photoEntries_length m mat camPos photos
  have hene : photoEntries m mat camPos photos ≠ [] := by
    intro hnil
    exact hne (List.length_eq_zero.mp (by rw [← hlen, hnil]; rfl))
  obtain ⟨i, hi, hsel, hfirst, hmin⟩ := nearestScan_spec _ hene
  have hip : i < photos.length := hlen ▸ hi
  refine ⟨i, hip, ?_, ?_, ?_⟩
  · rw [hsel, photoEntries_get m mat camPos photos i hi hip]
  · intro j hj
    have hje : j < (photoEntries m mat camPos photos).length := by rw [hlen]; exact hj
    have hle := hmin j hje
    rw [photoEntries_get m mat camPos photos i hi hip,
        photoEntries_get m mat camPos photos j hje hj] at hle
    exact (distanceTo_le_iff m hm _ _ _ _).mp hle
  · intro j hji
    have hj : j < photos.length := lt_trans hji hip
    have hje : j < (photoEntries m mat camPos photos).length := by rw [hlen]; exact hj
    have hlt := hfirst j hje hji
    rw [photoEntries_get m mat camPos photos i hi hip,
        photoEntries_get m mat camPos photos j hje hj] at hlt
    exact (distanceTo_lt_iff m hm _ _ _ _).mp hlt

/-- C10: the nearest-photo scan of `handlePinchFocus` visits the photo
indices in ascending order with a strict less-than comparison, so for every
non-empty photo list its result is a deterministic function of the photo
list, the tree group's world matrix and the camera position — the photo
whose ornament world position has the least (squared) Euclidean distance to
the camera — and when two or more ornaments are at exactly the minimal
distance, the photo with the lowest index is selected. -/
theorem nearest_scan_picks_first_minimum (m : JSMath) (hm : SqrtStrictMono m)
    (mat : Aff) (camPos : Vec3) (photos : List String) (hne : photos ≠ []) :
    ∃ i, ∃ hi : i < photos.length,
      (nearestScan (photoEntries m mat camPos photos)).1 = some (photos.get ⟨i, hi⟩) ∧
      (∀ j, j < photos.length →
        sqDist3 (photoWorld m mat i) camPos ≤ sqDist3 (photoWorld m mat j) camPos) ∧
      (∀ j, j < i →
        sqDist3 (photoWorld m mat i) camPos < sqDist3 (photoWorld m mat j) camPos) :=
  nearestPhoto_spec m hm mat camPos photos hne

/-- The `JSMath` instantiation used by the concrete witnesses: `sqrt` is the
identity (strictly monotone on all of ℚ), the other primitives are
arbitrary. -/
def jsMathW : JSMath := ⟨id, id, id, id, fun a _ => a, 3⟩

/-- Witness for `nearest_scan_picks_first_minimum` on a one-photo list. -/
theorem nearest_scan_picks_first_minimum_witness :
    (SqrtStrictMono jsMathW ∧ (["A"] : List String) ≠ []) ∧
    (∃ i, ∃ hi : i < (["A"] : List String).length,
      (nearestScan (photoEntries jsMathW affId ⟨0, 5, 20⟩ ["A"])).1 =
        some ((["A"] : List String).get ⟨i, hi⟩) ∧
      (∀ j, j < (["A"] : List String).length →
        sqDist3 (photoWorld jsMathW affId i) ⟨0, 5, 20⟩ ≤
          sqDist3 (photoWorld jsMathW affId j) ⟨0, 5, 20⟩) ∧
      (∀ j, j < i →
        sqDist3 (photoWorld jsMathW affId i) ⟨0, 5, 20⟩ <
          sqDist3 (photoWorld jsMathW affId j) ⟨0, 5, 20⟩)) :=
  ⟨⟨fun _ _ _ _ => Iff.rfl, by simp⟩,
   nearest_scan_picks_first_minimum jsMathW (fun _ _ _ _ => Iff.rfl) affId ⟨0, 5, 20⟩
     ["A"] (by simp)⟩

/-- C6: with photo list `[A, B, C]`, the camera at `(0, 5, 20)` and no
active focus session, a pinch-select gesture focuses exactly the photo whose
ornament world position — index placed by `angle = index*1.5 + π`,
`h = 0.25 + (index*0.12) mod 0.55`, `r = TREE_RADIUS_FACTOR(h)`, transformed
by the tree group's world matrix — has minimum (squared) Euclidean distance
to the camera position, the lowest such index on exact ties. -/
theorem pinch_focus_nearest_of_three (m : JSMath) (hm : SqrtStrictMono m) (mat : Aff) :
    ∃ i, ∃ hi : i < (["A", "B", "C"] : List String).length,
      handlePinchFocus m none ["A", "B", "C"] mat ⟨0, 5, 20⟩ =
        some ((["A", "B", "C"] : List String).get ⟨i, hi⟩) ∧
      (∀ j, j < 3 →
        sqDist3 (photoWorld m mat i) ⟨0, 5, 20⟩ ≤
          sqDist3 (photoWorld m mat j) ⟨0, 5, 20⟩) ∧
      (∀ j, j < i →
        sqDist3 (photoWorld m mat i) ⟨0, 5, 20⟩ <
          sqDist3 (photoWorld m mat j) ⟨0, 5, 20⟩) := by
  obtain ⟨i, hi, hsel, hmin, hfirst⟩ :=
    nearestPhoto_spec m hm mat ⟨0, 5, 20⟩ ["A", "B", "C"] (by simp)
  have hnonempty : (["A", "B", "C"] : List String).get ⟨i, hi⟩ ≠ "" := by
    have hall : ∀ k, ∀ hk : k < (["A", "B", "C"] : List String).length,
        (["A", "B", "C"] : List String).get ⟨k, hk⟩ ≠ "" := by decide
    exact hall i hi
  refine ⟨i, hi, ?_, fun j hj => hmin j (by simpa using hj), hfirst⟩
  simp only [handlePinchFocus]
  rw [if_neg (by simp [truthyStr])]
  rw [hsel]
  have hne2 : ¬ (["A", "B", "C"] : List String)[i] = "" := by
    simpa [List.get_eq_getElem] using hnonempty
  simp [truthyStr, hne2]

/-- Witness for `pinch_focus_nearest_of_three` at the identity world
matrix. -/
theorem pinch_focus_nearest_of_three_witness :
    SqrtStrictMono jsMathW ∧
    (∃ i, ∃ hi : i < (["A", "B", "C"] : List String).length,
      handlePinchFocus jsMathW none ["A", "B", "C"] affId ⟨0, 5, 20⟩ =
        some ((["A", "B", "C"] : List String).get ⟨i, hi⟩) ∧
      (∀ j, j < 3 →
        sqDist3 (photoWorld jsMathW affId i) ⟨0, 5, 20⟩ ≤
          sqDist3 (photoWorld jsMathW affId j) ⟨0, 5, 20⟩) ∧
      (∀ j, j < i →
        sqDist3 (photoWorld jsMathW affId i) ⟨0, 5, 20⟩ <
          sqDist3 (photoWorld jsMathW affId j) ⟨0, 5, 20⟩)) :=
  ⟨fun _ _ _ _ => Iff.rfl,
   pinch_focus_nearest_of_three jsMathW (fun _ _ _ _ => Iff.rfl) affId⟩

/-- `FOCUS_DIST` of `App.tsx` line 14. -/
def FOCUS_DIST : ℚ := 8

/-- The full viewport height visible `FOCUS_DIST` units in front of the
camera: `2 * tan(fovRad / 2) * FOCUS_DIST` with `fovRad = fov * π / 180`
(`App.tsx` lines 46-49). -/
def viewportHeightAtDist (m : JSMath) (fov : ℚ) : ℚ :=
  2 * m.tan (fov * m.pi / 180 / 2) * FOCUS_DIST

/-- The corresponding viewport width: height times the canvas aspect
`size.width / size.height` (`App.tsx` line 50). -/
def viewportWidthAtDist (m : JSMath) (fov sizeW sizeH : ℚ) : ℚ :=
  viewportHeightAtDist m fov * (sizeW / sizeH)

/-- The height cap: half the visible viewport height (`App.tsx` line 53). -/
def maxHscale (m : JSMath) (fov : ℚ) : ℚ := viewportHeightAtDist m fov * (1/2)

/-- The width cap: 0.33 of the visible viewport width (`App.tsx` line 54). -/
def maxWscale (m : JSMath) (fov sizeW sizeH : ℚ) : ℚ :=
  viewportWidthAtDist m fov sizeW sizeH * (33/100)

/-- The `targetScale` computation of `FocusedPhoto` (`App.tsx` lines 44-66):
start from the height cap, derive the width from the image aspect ratio, and
if that width exceeds the width cap, clamp to the width cap and recompute
the height from it.  Returns `(w, h)`. -/
def targetScale (m : JSMath) (fov sizeW sizeH aspect : ℚ) : ℚ × ℚ :=
  let maxH := maxHscale m fov
  let maxW := maxWscale m fov sizeW sizeH
  let finalH := maxH
  let finalW := finalH * aspect
  if finalW > maxW then (maxW, maxW / aspect) else (finalW, finalH)

/-- C7: for every image aspect ratio `a > 0` and every camera field of view
and viewport size, the focused photo's target scale satisfies
`h ≤ maxH = 0.5 × (viewport height at FOCUS_DIST)` and
`w ≤ maxW = 0.33 × (viewport width at FOCUS_DIST)`, and the width bound
takes priority: whenever `maxH * a` exceeds `maxW`, the width is set to
exactly `maxW` and the height to `maxW / a`. -/
theorem targetScale_bounded (m : JSMath) (fov sizeW sizeH a : ℚ) (ha : 0 < a) :
    (targetScale m fov sizeW sizeH a).2 ≤ maxHscale m fov ∧
    (targetScale m fov sizeW sizeH a).1 ≤ maxWscale m fov sizeW sizeH ∧
    (maxHscale m fov * a > maxWscale m fov sizeW sizeH →
      (targetScale m fov sizeW sizeH a).1 = maxWscale m fov sizeW sizeH ∧
      (targetScale m fov sizeW sizeH a).2 = maxWscale m fov sizeW sizeH / a) := by
  simp only [targetScale]
  split_ifs with hcond
  · refine ⟨?_, le_refl _, fun _ => ⟨rfl, rfl⟩⟩
    exact (div_le_iff₀ ha).mpr (le_of_lt hcond)
  · exact ⟨le_refl _, le_of_not_lt hcond, fun hgt => absurd hgt hcond⟩

/-- Witness for `targetScale_bounded` at a concrete configuration. -/
theorem targetScale_bounded_witness :
    (0 : ℚ) < 2 ∧
    ((targetScale jsMathW 45 16 9 2).2 ≤ maxHscale jsMathW 45 ∧
     (targetScale jsMathW 45 16 9 2).1 ≤ maxWscale jsMathW 45 16 9 ∧
     (maxHscale jsMathW 45 * 2 > maxWscale jsMathW 45 16 9 →
       (targetScale jsMathW 45 16 9 2).1 = maxWscale jsMathW 45 16 9 ∧
       (targetScale jsMathW 45 16 9 2).2 = maxWscale jsMathW 45 16 9 / 2)) :=
  ⟨by norm_num, targetScale_bounded jsMathW 45 16 9 2 (by norm_num)⟩

/-- C8: while a focus session is active (the focused photo is a non-null,
non-empty URL — the only kind a session can hold, since sessions are created
from truthy URLs), the `onDrag` and `onZoom` handlers leave the rotation
group's yaw, the rotation velocity and the zoom target unchanged. -/
theorem focus_suppresses_orbit_input (u : String) (hu : u ≠ "")
    (s : OrbitState) (dx dy : ℚ) :
    onDrag (some u) s dx = s ∧ onZoom (some u) s dy = s := by
  constructor <;> simp [onDrag, onZoom, truthyStr, hu]

/-- Witness for `focus_suppresses_orbit_input` at a concrete session. -/
theorem focus_suppresses_orbit_input_witness :
    "blob:p" ≠ "" ∧
    (onDrag (some "blob:p") ⟨0, 0, 20⟩ 1 = ⟨0, 0, 20⟩ ∧
     onZoom (some "blob:p") ⟨0, 0, 20⟩ 1 = ⟨0, 0, 20⟩) :=
  ⟨by decide, focus_suppresses_orbit_input "blob:p" (by decide) ⟨0, 0, 20⟩ 1 1⟩

/-- C9: a pinch-select is a no-op while the photo list is empty (no focus
set, for any current focus state) and while a focus session is already
active (truthy focused URL); and a dismiss (double-pinch) while no session
is active dispatches nothing. -/
theorem pinch_noops (m : JSMath) (mat : Aff) (camPos : Vec3)
    (focusedPhoto : Option String) (photos : List String) (u : String)
    (hu : u ≠ "") :
    handlePinchFocus m focusedPhoto [] mat camPos = none ∧
    handlePinchFocus m (some u) photos mat camPos = none ∧
    handleDoublePinch none = false := by
  refine ⟨?_, ?_, rfl⟩
  · simp [handlePinchFocus]
  · simp [handlePinchFocus, truthyStr, hu]

/-- Witness for `pinch_noops` at concrete inputs. -/
theorem pinch_noops_witness :
    "blob:p" ≠ "" ∧
    (handlePinchFocus jsMathW none [] affId ⟨0, 5, 20⟩ = none ∧
     handlePinchFocus jsMathW (some "blob:p") ["blob:q"] affId ⟨0, 5, 20⟩ = none ∧
     handleDoublePinch none = false) :=
  ⟨by decide, pinch_noops jsMathW affId ⟨0, 5, 20⟩ none ["blob:q"] "blob:p" (by decide)⟩
